import Mathlib

/-!
Verification of the Finguru expense-ledger core against its specification.

The repository's visible code is the React frontend (`frontend/src`), the
AWS setup scripts and the deployment guides; the backend core (Specification
Store, Candidate Extractor, Rule Validator, Confidence Gate, Ledger Writer,
Confirmation Resolver) is described by the specification's external
contracts.  Components missing from the repository are modelled from the
spec; frontend code (`api.ts`, `utils.ts`, the page confirm handlers) is
embedded directly from the source.
-/

namespace Finguru

/-! ## Basic string machinery: case-insensitive substring search -/

/-- Lowercase a list of characters. -/
def lowerL (s : List Char) : List Char := s.map Char.toLower

/-- `startsWith p l` is true when `p` is an initial segment of `l`. -/
def startsWith : List Char → List Char → Bool
  | [], _ => true
  | _ :: _, [] => false
  | p :: ps, c :: cs => (p == c) && startsWith ps cs

/-- `containsSub needle hay` is true when `needle` occurs as a contiguous
run inside `hay`. -/
def containsSub (needle : List Char) : List Char → Bool
  | [] => needle.isEmpty
  | c :: cs => startsWith needle (c :: cs) || containsSub needle cs

/-! ## Rounding

Modelled from the spec: `gst_amount` rounding uses "round half away from
zero" to 2 decimal places. -/

/-- Round a rational to 2 decimal places, halves away from zero. -/
def roundHalfAway2 (q : ℚ) : ℚ :=
  if q < 0 then -(Int.floor ((-q) * 100 + 1/2) : ℚ) / 100
  else (Int.floor (q * 100 + 1/2) : ℚ) / 100

/-! ## Specification Store

Modelled from the spec: the Specification Store loads the category
taxonomy (key, display name, GST rate, ordered keyword list) and exposes
`lookup_category` and `match_keywords`; ties in `match_keywords` are
broken by declaration order. The concrete `accounting.yaml` is not in the
repository. -/

/-- One expense category of the accounting specification. -/
structure Category where
  key : String
  displayName : String
  gstRate : ℚ
  keywords : List String
deriving DecidableEq

/-- A specification is the ordered list of declared categories. -/
abbrev Spec := List Category

/-- Modelled from the spec: `lookup_category(key) -> ExpenseCategory | NotFound`. -/
def lookupCategory (spec : Spec) (key : String) : Option Category :=
  spec.find? (fun c => c.key == key)

/-- GST rate the Specification Store assigns to a category key
(0 when the key is absent). -/
def storeRate (spec : Spec) (key : String) : ℚ :=
  ((lookupCategory spec key).map Category.gstRate).getD 0

/-- All keywords of one category that occur (case-insensitively) in the
already-lowercased text, paired with the category key, in keyword
declaration order. -/
def categoryMatches (c : Category) (ltext : List Char) : List (String × String) :=
  (c.keywords.filter (fun kw => containsSub (lowerL kw.data) ltext)).map
    (fun kw => (c.key, kw))

/-- Modelled from the spec: `match_keywords(text)` — case-insensitive
substring search over all categories; results ordered by category
declaration order, then keyword declaration order. -/
def matchKeywords (spec : Spec) (text : String) : List (String × String) :=
  (spec.map (fun c => categoryMatches c (lowerL text.data))).flatten

/-- Whether a category has at least one keyword occurring in the
lowercased text. -/
def hasMatch (c : Category) (ltext : List Char) : Bool :=
  c.keywords.any (fun kw => containsSub (lowerL kw.data) ltext)

/-- The category key the independent keyword match resolves to: the first
entry of `matchKeywords`, when any keyword matched. -/
def firstMatch (spec : Spec) (text : String) : Option String :=
  (matchKeywords spec text).head?.map Prod.fst

/-! ## Candidate Extractor and Rule Validator

Modelled from the spec: the oracle output (`CandidateRecord`), the
one-retry extractor wrapper, and the deterministic reconciliation of the
Rule Validator. -/

/-- Oracle output for one request (spec section 3, CandidateRecord). -/
structure CandidateRecord where
  amount : ℚ
  category : String
  gstRate : ℚ
  confidence : ℚ
  explanation : String
deriving DecidableEq

/-- The validator's output: amount, resolved category, resolved gst_rate,
gst_amount, adjusted confidence, disagreement flag, explanation
(spec section 4.3). -/
structure ValidatedRecord where
  amount : ℚ
  category : String
  gstRate : ℚ
  gstAmount : ℚ
  confidence : ℚ
  disagreement : Bool
  explanation : String
deriving DecidableEq

/-- The designated fallback category key. -/
def miscKey : String := "miscellaneous"

/-- Default reconciliation confidence penalty (spec section 4.3: 0.15). -/
def penalty : ℚ := 15/100

/-- Configured confidence threshold (deployment sets
`CONFIDENCE_THRESHOLD=0.85`). -/
def threshold : ℚ := 85/100

/-- Modelled from the spec: the Rule Validator's reconciliation policy
(spec section 4.3, priority order): an unknown oracle category is
overridden by the independent match or the `miscellaneous` fallback with
a confidence penalty; a disagreement with an existing independent match
keeps the oracle's category, sets the `disagreement` flag and applies the
penalty; agreement (or no independent match) keeps everything. The result
is (resolved category, disagreement flag, adjusted confidence). -/
def reconcile (spec : Spec) (cand : CandidateRecord) (text : String) :
    String × Bool × ℚ :=
  match lookupCategory spec cand.category with
  | none =>
      ((firstMatch spec text).getD miscKey, false, max 0 (cand.confidence - penalty))
  | some _ =>
      match firstMatch spec text with
      | some k =>
          if k == cand.category then (cand.category, false, cand.confidence)
          else (cand.category, true, max 0 (cand.confidence - penalty))
      | none => (cand.category, false, cand.confidence)

/-- Modelled from the spec: the Rule Validator (spec section 4.3).
Re-derives the category via `reconcile`, takes the GST rate from the
Specification Store for the finally-chosen category, and computes
`gst_amount` by the rounding formula; confidence is clamped to `[0,1]`. -/
def validate (spec : Spec) (cand : CandidateRecord) (text : String) : ValidatedRecord :=
  { amount := cand.amount
    category := (reconcile spec cand text).1
    gstRate := storeRate spec (reconcile spec cand text).1
    gstAmount :=
      roundHalfAway2 (cand.amount * storeRate spec (reconcile spec cand text).1 / 100)
    confidence := min 1 (reconcile spec cand text).2.2
    disagreement := (reconcile spec cand text).2.1
    explanation := cand.explanation }

/-! ## Confidence Gate -/

/-- Modelled from the spec: the Confidence Gate decision rule
(spec section 4.4). -/
def needsConfirmation (v : ValidatedRecord) : Bool :=
  decide (v.confidence < threshold) || v.disagreement || (v.category == miscKey)

/-- The gated pipeline on one validated candidate: the decision together
with the validated record it was made from. -/
def processCandidate (spec : Spec) (cand : CandidateRecord) (text : String) :
    Bool × ValidatedRecord :=
  let v := validate spec cand text
  (needsConfirmation v, v)

/-! ## Ledger Writer

Modelled from the spec: the Ledger Writer is the sole writer of committed
entries, idempotent on the transaction identifier (spec section 4.5); the
DynamoDB table is keyed by `transaction_id` (HASH). -/

/-- Source tag of an entry. -/
inductive Source where
  | receipt
  | voice
deriving DecidableEq

/-- The persisted ledger entry (spec section 3 / section 6 shape). -/
structure LedgerEntry where
  transaction_id : String
  date : String
  amount : ℚ
  category : String
  gst_rate : ℚ
  gst_amount : ℚ
  source : Source
  confidence : ℚ
  explanation : String
  vendor_name : Option String
  vendor_gstin : Option String
  raw_text : Option String
  created_at : String
deriving DecidableEq

/-- The committed store: the ordered list of committed entries. -/
abbrev Ledger := List LedgerEntry

/-- Committed entry, looked up by transaction identifier. -/
def findEntry (l : Ledger) (tid : String) : Option LedgerEntry :=
  l.find? (fun e => e.transaction_id == tid)

/-- Modelled from the spec: `commit(record)` — idempotent on the
transaction identifier; when the identifier already exists as committed
the existing entry is returned (the spec's recommended policy), otherwise
the record is stored. -/
def commit (l : Ledger) (e : LedgerEntry) : Ledger × LedgerEntry :=
  match findEntry l e.transaction_id with
  | some existing => (l, existing)
  | none => (l ++ [e], e)

/-- Modelled from the spec: `delete(transaction_id)` removes the committed
entry with that identifier, reporting whether one existed. -/
def deleteEntry (l : Ledger) (tid : String) : Ledger × Bool :=
  match findEntry l tid with
  | some _ => (l.filter (fun e => !(e.transaction_id == tid)), true)
  | none => (l, false)

/-! ## Confirmation Resolver -/

/-- Modelled from the spec: the Confirmation Resolver (spec section 4.6)
applied to the pending validated record. With neither override it
confirms the original resolved values as-is; with either override it
re-derives gst_rate and gst_amount from the Specification Store using the
corrected category, rewrites the explanation to user-confirmed
provenance, and sets confidence to 1.0. -/
def resolve (spec : Spec) (v : ValidatedRecord)
    (confirmedAmount : Option ℚ) (confirmedCategory : Option String) :
    ValidatedRecord :=
  match confirmedAmount, confirmedCategory with
  | none, none => v
  | a, c =>
      let amount := a.getD v.amount
      let key := c.getD v.category
      let rate := storeRate spec key
      { amount := amount
        category := key
        gstRate := rate
        gstAmount := roundHalfAway2 (amount * rate / 100)
        confidence := 1
        disagreement := false
        explanation := "user-confirmed: " ++ key }

/-! ## Candidate Extractor retry discipline and the full request pipeline -/

/-- Modelled from the spec: the extractor's failure modes — transport or
timeout failure (`OracleUnavailable`) versus structural contract breach
(`OracleContractViolation`). -/
inductive OracleError where
  | unavailable
  | contractViolation
deriving DecidableEq

/-- Whether an outcome is a failure. -/
def isFail {α : Type} : Except OracleError α → Bool
  | Except.error _ => true
  | Except.ok _ => false

/-- Modelled from the spec: the Candidate Extractor wrapper — one call,
and on failure exactly one retry; the pair is the final outcome together
with the number of oracle calls made. -/
def extract (first second : Except OracleError CandidateRecord) :
    Except OracleError CandidateRecord × Nat :=
  match first with
  | Except.ok c => (Except.ok c, 1)
  | Except.error _ =>
      match second with
      | Except.ok c => (Except.ok c, 2)
      | Except.error e => (Except.error e, 2)

/-- A pending decision: the transaction identifier with its validated
record, awaiting human confirmation. -/
structure PendingDecision where
  tid : String
  record : ValidatedRecord
deriving DecidableEq

/-- The mutable system state: the committed ledger and the pending
decision table. -/
structure SysState where
  ledger : Ledger
  pending : List PendingDecision
deriving DecidableEq

/-- Build the persisted entry from a validated record. -/
def toEntry (tid date : String) (src : Source) (raw : Option String)
    (v : ValidatedRecord) : LedgerEntry :=
  { transaction_id := tid
    date := date
    amount := v.amount
    category := v.category
    gst_rate := v.gstRate
    gst_amount := v.gstAmount
    source := src
    confidence := v.confidence
    explanation := v.explanation
    vendor_name := none
    vendor_gstin := none
    raw_text := raw
    created_at := date }

/-- Modelled from the spec: processing one raw text end to end — extract
with one retry, validate, gate, then either auto-commit or create a
pending decision; a terminal extractor error leaves the state untouched
and yields no record. The Boolean result reports `needs_confirmation`. -/
def processText (spec : Spec) (st : SysState)
    (first second : Except OracleError CandidateRecord)
    (text tid date : String) (src : Source) :
    SysState × Except OracleError Bool :=
  match (extract first second).1 with
  | Except.error e => (st, Except.error e)
  | Except.ok cand =>
      if (processCandidate spec cand text).1 then
        ({ st with pending := st.pending ++ [⟨tid, (processCandidate spec cand text).2⟩] },
          Except.ok true)
      else
        ({ st with
            ledger := (commit st.ledger
              (toEntry tid date src (some text) (processCandidate spec cand text).2)).1 },
          Except.ok false)

/-- The operations the surrounding application can perform on the core. -/
inductive Op where
  | process (first second : Except OracleError CandidateRecord)
      (text tid date : String) (src : Source)
  | confirm (tid : String) (a : Option ℚ) (c : Option String)
      (date : String) (src : Source)
  | delete (tid : String)
  | query

/-- Modelled from the spec: the state transition each operation induces.
Confirmation resolves the pending record, commits it, and removes the
pending decision; delete removes a committed entry; query reads only. -/
def step (spec : Spec) (op : Op) (st : SysState) : SysState :=
  match op with
  | Op.process f s text tid date src => (processText spec st f s text tid date src).1
  | Op.confirm tid a c date src =>
      match st.pending.find? (fun p => p.tid == tid) with
      | none => st
      | some p =>
          { ledger := (commit st.ledger (toEntry tid date src none (resolve spec p.record a c))).1
            pending := st.pending.filter (fun q => !(q.tid == tid)) }
  | Op.delete tid => { st with ledger := (deleteEntry st.ledger tid).1 }
  | Op.query => st

/-! ## Frontend embeddings (code under `frontend/src` and the api client) -/

/-- The body `confirmReceipt`/`confirmVoice` POST to the backend
(api client): transaction identifier plus the two optional overrides. -/
structure ConfirmPayload where
  transaction_id : String
  confirmed_amount : Option ℚ
  confirmed_category : Option String
deriving DecidableEq

/-- `confirmReceipt(transactionId, amount?, category?)` from the api
client: builds the confirmation payload verbatim from its arguments. -/
def confirmReceiptRequest (transactionId : String) (amount : Option ℚ)
    (category : Option String) : ConfirmPayload :=
  { transaction_id := transactionId
    confirmed_amount := amount
    confirmed_category := category }

/-- `confirmVoice(transactionId, amount?, category?)` from the api
client: builds the confirmation payload verbatim from its arguments. -/
def confirmVoiceRequest (transactionId : String) (amount : Option ℚ)
    (category : Option String) : ConfirmPayload :=
  { transaction_id := transactionId
    confirmed_amount := amount
    confirmed_category := category }

/-- `handleConfirm` of `ReceiptUpload.tsx`: calls `confirmReceipt` with
only the entry's transaction identifier; both overrides are omitted. -/
def receiptHandleConfirm (tid : String) : ConfirmPayload :=
  confirmReceiptRequest tid none none

/-- `handleConfirm` of the voice entry page: calls `confirmVoice` with
only the entry's transaction identifier; both overrides are omitted. -/
def voiceHandleConfirm (tid : String) : ConfirmPayload :=
  confirmVoiceRequest tid none none

/-- The `colors` map of `getCategoryColor` (`frontend/src/lib/utils.ts`). -/
def categoryColors : List (String × String) :=
  [("food", "bg-orange-500"),
   ("transport", "bg-blue-500"),
   ("office_supplies", "bg-purple-500"),
   ("utilities", "bg-yellow-500"),
   ("rent", "bg-red-500"),
   ("professional_services", "bg-indigo-500"),
   ("raw_materials", "bg-green-500"),
   ("maintenance", "bg-pink-500"),
   ("miscellaneous", "bg-gray-500")]

/-- `getCategoryColor` from `utils.ts`: map lookup with the
`'bg-gray-500'` default. -/
def getCategoryColor (category : String) : String :=
  ((categoryColors.find? (fun p => p.1 == category)).map Prod.snd).getD "bg-gray-500"

/-- The `names` map of `getCategoryDisplayName` (`utils.ts`). -/
def categoryNames : List (String × String) :=
  [("food", "Food & Beverages"),
   ("transport", "Transportation"),
   ("office_supplies", "Office Supplies"),
   ("utilities", "Utilities"),
   ("rent", "Rent & Lease"),
   ("professional_services", "Professional Services"),
   ("raw_materials", "Raw Materials"),
   ("maintenance", "Repairs & Maintenance"),
   ("miscellaneous", "Miscellaneous")]

/-- `getCategoryDisplayName` from `utils.ts`: map lookup falling back to
the key itself. -/
def getCategoryDisplayName (category : String) : String :=
  ((categoryNames.find? (fun p => p.1 == category)).map Prod.snd).getD category

/-- The primitive field types appearing in the TypeScript interface. -/
inductive FieldTy where
  | str
  | num
  | srcEnum
deriving DecidableEq

/-- A field of an interface: name, type, and whether it is optional. -/
structure FieldDesc where
  name : String
  ty : FieldTy
  optional : Bool
deriving DecidableEq

/-- The fields of the frontend's `LedgerEntry` interface (api client), in
source order. -/
def frontendLedgerEntryFields : List FieldDesc :=
  [⟨"transaction_id", FieldTy.str, false⟩,
   ⟨"date", FieldTy.str, false⟩,
   ⟨"amount", FieldTy.num, false⟩,
   ⟨"category", FieldTy.str, false⟩,
   ⟨"gst_rate", FieldTy.num, false⟩,
   ⟨"gst_amount", FieldTy.num, false⟩,
   ⟨"source", FieldTy.srcEnum, false⟩,
   ⟨"confidence", FieldTy.num, false⟩,
   ⟨"explanation", FieldTy.str, false⟩,
   ⟨"vendor_name", FieldTy.str, true⟩,
   ⟨"vendor_gstin", FieldTy.str, true⟩,
   ⟨"receipt_url", FieldTy.str, true⟩,
   ⟨"audio_url", FieldTy.str, true⟩,
   ⟨"raw_text", FieldTy.str, true⟩,
   ⟨"created_at", FieldTy.str, false⟩]

/-- The ledger-entry shape stated by the specification (section 6):
`{transaction_id, date, amount, category, gst_rate, gst_amount,
source: receipt|voice, confidence, explanation, vendor_name?,
vendor_gstin?, raw_text?, created_at}`. -/
def specLedgerEntryShape : List FieldDesc :=
  [⟨"transaction_id", FieldTy.str, false⟩,
   ⟨"date", FieldTy.str, false⟩,
   ⟨"amount", FieldTy.num, false⟩,
   ⟨"category", FieldTy.str, false⟩,
   ⟨"gst_rate", FieldTy.num, false⟩,
   ⟨"gst_amount", FieldTy.num, false⟩,
   ⟨"source", FieldTy.srcEnum, false⟩,
   ⟨"confidence", FieldTy.num, false⟩,
   ⟨"explanation", FieldTy.str, false⟩,
   ⟨"vendor_name", FieldTy.str, true⟩,
   ⟨"vendor_gstin", FieldTy.str, true⟩,
   ⟨"raw_text", FieldTy.str, true⟩,
   ⟨"created_at", FieldTy.str, false⟩]

/-! ## A concrete specification instance, for evaluation -/

/-- A small concrete accounting specification used to evaluate the model
on concrete inputs (rates as in the documented scenarios: food 5,
office_supplies 18). -/
def sampleSpec : Spec :=
  [⟨"food", "Food & Beverages", 5, ["chai", "food", "restaurant"]⟩,
   ⟨"transport", "Transportation", 5, ["taxi", "uber", "bus"]⟩,
   ⟨"office_supplies", "Office Supplies", 18, ["pen", "paper"]⟩,
   ⟨"miscellaneous", "Miscellaneous", 18, ["misc"]⟩]

/-! ## Theorems -/

/-- C1: for every processed record, the Confidence Gate's decision has
`needs_confirmation = true` if and only if the adjusted confidence is
below the configured threshold (0.85), or the disagreement flag is set,
or the resolved category is the `miscellaneous` fallback; in particular
it is false only when all three conditions are false, and a set
disagreement flag forces it to true regardless of the numeric
confidence. -/
theorem gate_needs_confirmation_iff (spec : Spec) (cand : CandidateRecord) (text : String) :
    (processCandidate spec cand text).1 = true ↔
      ((processCandidate spec cand text).2.confidence < threshold ∨
        (processCandidate spec cand text).2.disagreement = true ∨
        (processCandidate spec cand text).2.category = miscKey) := by
  simp [processCandidate, needsConfirmation, Bool.or_eq_true, decide_eq_true_iff,
    beq_iff_eq, or_assoc]

/-- C2: the validated record that gets committed always carries
`gst_amount = roundHalfAway2 (amount * gst_rate / 100)` with `gst_rate`
the Specification Store's rate for the finally-chosen category; the
oracle's proposed rate is never used (the validator's output does not
depend on it); and amount 120 at rate 5 yields 6.00. -/
theorem gst_amount_from_spec_rate (spec : Spec) (cand : CandidateRecord) (text : String) :
    (validate spec cand text).gstAmount =
      roundHalfAway2
        ((validate spec cand text).amount * (validate spec cand text).gstRate / 100) ∧
    (validate spec cand text).gstRate = storeRate spec (validate spec cand text).category ∧
    (∀ r : ℚ, validate spec { cand with gstRate := r } text = validate spec cand text) ∧
    roundHalfAway2 (120 * 5 / 100) = 6 := by
  refine ⟨rfl, rfl, fun r => rfl, ?_⟩
  rw [roundHalfAway2]
  norm_num

lemma findEntry_append_self (l : Ledger) (e : LedgerEntry)
    (h : findEntry l e.transaction_id = none) :
    findEntry (l ++ [e]) e.transaction_id = some e := by
  induction l with
  | nil => simp [findEntry]
  | cons a t ih =>
      unfold findEntry at h ih ⊢
      rw [List.cons_append, List.find?]
      rw [List.find?] at h
      cases hpa : (a.transaction_id == e.transaction_id) with
      | true => rw [hpa] at h; simp at h
      | false =>
          rw [hpa] at h
          simp only [hpa]
          exact ih h

lemma filter_eq_nil_of_findEntry_none (l : Ledger) (tid : String)
    (h : findEntry l tid = none) :
    l.filter (fun x => x.transaction_id == tid) = [] := by
  induction l with
  | nil => rfl
  | cons a t ih =>
      unfold findEntry at h ih
      rw [List.find?] at h
      cases hpa : (a.transaction_id == tid) with
      | true => rw [hpa] at h; simp at h
      | false =>
          rw [hpa] at h
          simp only [List.filter, hpa]
          exact ih h

/-- C3: commit is idempotent on the transaction identifier. Starting from
a ledger without the identifier, committing the same payload twice leaves
exactly one stored entry with that identifier, the ledger is unchanged by
the second call, and the second call returns the very entry the first
call stored — no duplicate, and no error surfaces (the model's `commit`
is total). -/
theorem commit_idempotent (l : Ledger) (e : LedgerEntry)
    (h : findEntry l e.transaction_id = none) :
    (commit ((commit l e).1) e).2 = (commit l e).2 ∧
    (commit ((commit l e).1) e).1 = (commit l e).1 ∧
    (((commit ((commit l e).1) e).1.filter
        (fun x => x.transaction_id == e.transaction_id)).length = 1) := by
  have h1 : commit l e = (l ++ [e], e) := by
    unfold commit
    rw [h]
  have h2 : commit (l ++ [e]) e = (l ++ [e], e) := by
    unfold commit
    rw [findEntry_append_self l e h]
  refine ⟨?_, ?_, ?_⟩
  · rw [h1, h2]
  · rw [h1, h2]
  · rw [h1, h2]
    simp only [List.filter_append, filter_eq_nil_of_findEntry_none l e.transaction_id h]
    simp [List.filter]

/-- A concrete committed entry, used to evaluate the model. -/
def sampleEntry : LedgerEntry :=
  { transaction_id := "txn-1"
    date := "2026-10-11"
    amount := 120
    category := "food"
    gst_rate := 5
    gst_amount := 6
    source := Source.receipt
    confidence := 91/100
    explanation := "matched keyword chai"
    vendor_name := none
    vendor_gstin := none
    raw_text := none
    created_at := "2026-10-11" }

/-- Witness for C3: the idempotence theorem applied to the empty ledger
and a concrete entry. -/
theorem commit_idempotent_witness :
    findEntry [] sampleEntry.transaction_id = none ∧
    ((commit ((commit [] sampleEntry).1) sampleEntry).2 = (commit [] sampleEntry).2 ∧
      (commit ((commit [] sampleEntry).1) sampleEntry).1 = (commit [] sampleEntry).1 ∧
      (((commit ((commit [] sampleEntry).1) sampleEntry).1.filter
          (fun x => x.transaction_id == sampleEntry.transaction_id)).length = 1)) :=
  ⟨rfl, commit_idempotent [] sampleEntry rfl⟩

/-- A concrete pending validated record awaiting confirmation, with a
sub-threshold confidence of 0.7. -/
def pendingSample : ValidatedRecord :=
  { amount := 120
    category := "food"
    gstRate := 5
    gstAmount := 6
    confidence := 7/10
    disagreement := false
    explanation := "matched keyword chai" }

/-- C4 counterexample: finalizing a pending record with neither override
supplied confirms the validator's values as-is (spec section 4.6), so the
committed confidence stays 0.7 — not 1.0 as the claim's universal first
sentence demands. -/
theorem resolver_confidence_counterexample :
    ¬ ((resolve sampleSpec pendingSample none none).confidence = 1) := by
  have h : resolve sampleSpec pendingSample none none = pendingSample := rfl
  rw [h]
  show ¬ ((7 : ℚ)/10 = 1)
  norm_num

/-- C4 (amended): when either override is supplied, the finalized record
has confidence 1.0 and its gst_rate and gst_amount are re-derived from
the Specification Store using the confirmed category (never stale
candidate values); when neither override is supplied, the resolver
confirms the validator's original resolved values unchanged. -/
theorem resolver_finalization (spec : Spec) (v : ValidatedRecord)
    (a : Option ℚ) (c : Option String) :
    (a = none ∧ c = none ∧ resolve spec v a c = v) ∨
    ((a.isSome = true ∨ c.isSome = true) ∧
      (resolve spec v a c).confidence = 1 ∧
      (resolve spec v a c).category = c.getD v.category ∧
      (resolve spec v a c).gstRate = storeRate spec (c.getD v.category) ∧
      (resolve spec v a c).gstAmount =
        roundHalfAway2 ((a.getD v.amount) * storeRate spec (c.getD v.category) / 100)) := by
  cases a with
  | none =>
      cases c with
      | none => exact Or.inl ⟨rfl, rfl, rfl⟩
      | some ck => exact Or.inr ⟨Or.inr rfl, rfl, rfl, rfl, rfl⟩
  | some av =>
      cases c with
      | none => exact Or.inr ⟨Or.inl rfl, rfl, rfl, rfl, rfl⟩
      | some ck => exact Or.inr ⟨Or.inl rfl, rfl, rfl, rfl, rfl⟩

lemma head_keywordMatches (key : String) (kws : List String) (lt : List Char) :
    (((kws.filter (fun kw => containsSub (lowerL kw.data) lt)).map
        (fun kw => (key, kw))).head?).map Prod.fst =
      cond (kws.any (fun kw => containsSub (lowerL kw.data) lt)) (some key) none := by
  induction kws with
  | nil => rfl
  | cons k ks ih =>
      by_cases h : containsSub (lowerL k.data) lt = true
      · simp [List.filter_cons, List.any_cons, h]
      · simp only [Bool.not_eq_true] at h
        rw [List.filter_cons, List.any_cons, h]
        simpa using ih

/-- C5: for every specification and every input text, the winning
category of `match_keywords` — the category of the first result — is the
first category in declaration order that has any case-insensitively
matching keyword: ties between categories are broken by declaration
order alone (never keyword length, alphabetical order, or match position
in the text), and the result is a deterministic function of the
specification and the text. -/
theorem matchKeywords_declaration_order (spec : Spec) (text : String) :
    (matchKeywords spec text).head?.map Prod.fst =
      (spec.find? (fun c => hasMatch c (lowerL text.data))).map Category.key := by
  induction spec with
  | nil => rfl
  | cons c rest ih =>
      have hh : (categoryMatches c (lowerL text.data)).head?.map Prod.fst =
          cond (hasMatch c (lowerL text.data)) (some c.key) none :=
        head_keywordMatches c.key c.keywords (lowerL text.data)
      show ((List.map _ (c :: rest)).flatten).head?.map Prod.fst = _
      rw [List.map_cons, List.flatten_cons]
      cases hm : hasMatch c (lowerL text.data) with
      | false =>
          rw [hm] at hh
          have hnil : categoryMatches c (lowerL text.data) = [] := by
            cases hcm : categoryMatches c (lowerL text.data) with
            | nil => rfl
            | cons p ps => rw [hcm] at hh; simp at hh
          have hf : List.find? (fun c => hasMatch c (lowerL text.data)) (c :: rest) =
              List.find? (fun c => hasMatch c (lowerL text.data)) rest :=
            List.find?_cons_of_neg _ (by simp [hm])
          rw [hnil, List.nil_append, hf]
          exact ih
      | true =>
          rw [hm] at hh
          cases hcm : categoryMatches c (lowerL text.data) with
          | nil => rw [hcm] at hh; simp at hh
          | cons p ps =>
              rw [hcm] at hh
              have hf : List.find? (fun c => hasMatch c (lowerL text.data)) (c :: rest) =
                  some c :=
                List.find?_cons_of_pos _ hm
              rw [hf, List.cons_append]
              simpa using hh

/-- C6: the Candidate Extractor performs exactly one retry — one oracle
call when the first attempt succeeds and exactly two when it fails
(never more); and when both attempts fail (`OracleUnavailable` or
`OracleContractViolation` alike) the terminal error propagates to the
caller while the system state — ledger and pending-decision table — is
left exactly as it was: no partial record, no ledger entry, no pending
decision. -/
theorem extractor_one_retry (spec : Spec) (st : SysState)
    (first second : Except OracleError CandidateRecord)
    (text tid date : String) (src : Source) :
    ((extract first second).2 = if isFail first then 2 else 1) ∧
    (extract first second).2 ≤ 2 ∧
    (isFail first = true → isFail second = true →
      (processText spec st first second text tid date src).1 = st ∧
      isFail (processText spec st first second text tid date src).2 = true) := by
  cases first with
  | ok c => exact ⟨rfl, by norm_num [extract], fun h _ => by simp [isFail] at h⟩
  | error e1 =>
      cases second with
      | ok c => exact ⟨rfl, by norm_num [extract], fun _ h => by simp [isFail] at h⟩
      | error e2 =>
          refine ⟨rfl, by norm_num [extract], fun _ _ => ⟨rfl, rfl⟩⟩

/-- Witness for C6: both oracle attempts time out; the state (empty
ledger, empty pending table) is untouched and the caller sees the
failure. -/
theorem extractor_one_retry_witness :
    isFail (Except.error OracleError.unavailable : Except OracleError CandidateRecord) = true ∧
    ((processText sampleSpec ⟨[], []⟩ (Except.error OracleError.unavailable)
        (Except.error OracleError.unavailable) "chai" "txn-9" "2026-10-11" Source.voice).1
      = (⟨[], []⟩ : SysState) ∧
      isFail (processText sampleSpec ⟨[], []⟩ (Except.error OracleError.unavailable)
        (Except.error OracleError.unavailable) "chai" "txn-9" "2026-10-11" Source.voice).2
      = true) :=
  ⟨rfl,
    (extractor_one_retry sampleSpec ⟨[], []⟩ (Except.error OracleError.unavailable)
      (Except.error OracleError.unavailable) "chai" "txn-9" "2026-10-11" Source.voice).2.2
      rfl rfl⟩

/-- C7: the frontend's `LedgerEntry` interface carries exactly the
field names, types and optionality of the spec's boundary shape
`{transaction_id, date, amount, category, gst_rate, gst_amount,
source: receipt|voice, confidence, explanation, vendor_name?,
vendor_gstin?, raw_text?, created_at}`, in the spec's order, with exactly
the two additional optional fields `receipt_url?` and `audio_url?` noted
by the claim. -/
theorem ledger_entry_shape_preserved :
    frontendLedgerEntryFields.filter
        (fun f => !(f.name == "receipt_url" || f.name == "audio_url")) =
      specLedgerEntryShape ∧
    frontendLedgerEntryFields.filter
        (fun f => f.name == "receipt_url" || f.name == "audio_url") =
      [⟨"receipt_url", FieldTy.str, true⟩, ⟨"audio_url", FieldTy.str, true⟩] :=
  ⟨rfl, rfl⟩

lemma mem_commit_fst (l : Ledger) (e' e : LedgerEntry) (h : e ∈ l) :
    e ∈ (commit l e').1 := by
  unfold commit
  cases hf : findEntry l e'.transaction_id with
  | some ex => exact h
  | none => exact List.mem_append_left _ h

lemma mem_deleteEntry (l : Ledger) (tid : String) (e : LedgerEntry) (h : e ∈ l) :
    e ∈ (deleteEntry l tid).1 ∨ tid = e.transaction_id := by
  unfold deleteEntry
  cases hf : findEntry l tid with
  | none => exact Or.inl h
  | some ex =>
      by_cases hq : e.transaction_id = tid
      · exact Or.inr hq.symm
      · refine Or.inl (List.mem_filter.mpr ⟨h, ?_⟩)
        simp [hq]

lemma step_ledger (spec : Spec) (op : Op) (st : SysState) :
    (step spec op st).ledger = st.ledger ∨
    (∃ e', (step spec op st).ledger = (commit st.ledger e').1) ∨
    (∃ tid, op = Op.delete tid ∧
      (step spec op st).ledger = (deleteEntry st.ledger tid).1) := by
  cases op with
  | process f s text' tid' date' src' =>
      simp only [step, processText]
      cases hx : (extract f s).1 with
      | error e0 => exact Or.inl rfl
      | ok cand =>
          dsimp only
          by_cases hg : (processCandidate spec cand text').1 = true
          · rw [if_pos hg]
            exact Or.inl rfl
          · rw [if_neg hg]
            exact Or.inr (Or.inl ⟨_, rfl⟩)
  | confirm tid' a c date' src' =>
      simp only [step]
      cases hp : st.pending.find? (fun p => p.tid == tid') with
      | none => exact Or.inl rfl
      | some p => exact Or.inr (Or.inl ⟨_, rfl⟩)
  | delete tid' => exact Or.inr (Or.inr ⟨tid', rfl, rfl⟩)
  | query => exact Or.inl rfl

/-- C8: once committed, a ledger entry is never mutated in place — under
every operation of the system each committed entry either survives
identically or the operation was the explicit delete of its transaction
identifier; and deletion is only permitted after commit: deleting an
identifier that is not committed changes nothing at all. -/
theorem committed_entries_immutable (spec : Spec) (op : Op) (st : SysState)
    (e : LedgerEntry) (tid : String)
    (h1 : e ∈ st.ledger) (h2 : findEntry st.ledger tid = none) :
    (e ∈ (step spec op st).ledger ∨ op = Op.delete e.transaction_id) ∧
    step spec (Op.delete tid) st = st := by
  constructor
  · rcases step_ledger spec op st with hl | ⟨e', he⟩ | ⟨tid', hop, he⟩
    · rw [hl] at *
      exact Or.inl (hl ▸ h1)
    · rw [he]
      exact Or.inl (mem_commit_fst _ _ _ h1)
    · rw [he]
      rcases mem_deleteEntry st.ledger tid' e h1 with hm | htid
      · exact Or.inl hm
      · exact Or.inr (htid ▸ hop)
  · have hd : deleteEntry st.ledger tid = (st.ledger, false) := by
      unfold deleteEntry
      rw [h2]
    show { st with ledger := (deleteEntry st.ledger tid).1 } = st
    rw [hd]

/-- Witness for C8: a state holding one committed entry; the query
operation leaves the entry in place, and deleting an absent identifier
leaves the whole state unchanged. -/
theorem committed_entries_immutable_witness :
    sampleEntry ∈ ([sampleEntry] : Ledger) ∧
    findEntry [sampleEntry] "absent" = none ∧
    ((sampleEntry ∈ (step sampleSpec Op.query ⟨[sampleEntry], []⟩).ledger ∨
        Op.query = Op.delete sampleEntry.transaction_id) ∧
      step sampleSpec (Op.delete "absent") ⟨[sampleEntry], []⟩ =
        (⟨[sampleEntry], []⟩ : SysState)) :=
  ⟨List.Mem.head _, rfl,
    committed_entries_immutable sampleSpec Op.query ⟨[sampleEntry], []⟩ sampleEntry
      "absent" (List.Mem.head _) rfl⟩

/-- C9: both UI confirm handlers (receipt page and voice page) send the
transaction identifier alone — both overrides are `none` — so the
Confirmation Resolver takes the neither-override path and the entry's
amount and category are unchanged by a UI-initiated confirmation. -/
theorem ui_confirm_sends_no_overrides (tid : String) (spec : Spec) (v : ValidatedRecord) :
    (receiptHandleConfirm tid).transaction_id = tid ∧
    (receiptHandleConfirm tid).confirmed_amount = none ∧
    (receiptHandleConfirm tid).confirmed_category = none ∧
    (voiceHandleConfirm tid).transaction_id = tid ∧
    (voiceHandleConfirm tid).confirmed_amount = none ∧
    (voiceHandleConfirm tid).confirmed_category = none ∧
    resolve spec v (receiptHandleConfirm tid).confirmed_amount
      (receiptHandleConfirm tid).confirmed_category = v ∧
    resolve spec v (voiceHandleConfirm tid).confirmed_amount
      (voiceHandleConfirm tid).confirmed_category = v :=
  ⟨rfl, rfl, rfl, rfl, rfl, rfl, rfl, rfl⟩

/-- C10: `getCategoryDisplayName` and `getCategoryColor` are total: on
any key outside their maps they return the key itself and
`"bg-gray-500"` respectively (they cannot throw — they are total Lean
functions), and on the nine known keys they return the mapped display
name and color. -/
theorem category_helpers_total (key : String)
    (h1 : key ∉ categoryNames.map Prod.fst)
    (h2 : key ∉ categoryColors.map Prod.fst) :
    getCategoryDisplayName key = key ∧
    getCategoryColor key = "bg-gray-500" ∧
    (getCategoryDisplayName "food" = "Food & Beverages" ∧
      getCategoryDisplayName "transport" = "Transportation" ∧
      getCategoryDisplayName "office_supplies" = "Office Supplies" ∧
      getCategoryDisplayName "utilities" = "Utilities" ∧
      getCategoryDisplayName "rent" = "Rent & Lease" ∧
      getCategoryDisplayName "professional_services" = "Professional Services" ∧
      getCategoryDisplayName "raw_materials" = "Raw Materials" ∧
      getCategoryDisplayName "maintenance" = "Repairs & Maintenance" ∧
      getCategoryDisplayName "miscellaneous" = "Miscellaneous") ∧
    (getCategoryColor "food" = "bg-orange-500" ∧
      getCategoryColor "transport" = "bg-blue-500" ∧
      getCategoryColor "office_supplies" = "bg-purple-500" ∧
      getCategoryColor "utilities" = "bg-yellow-500" ∧
      getCategoryColor "rent" = "bg-red-500" ∧
      getCategoryColor "professional_services" = "bg-indigo-500" ∧
      getCategoryColor "raw_materials" = "bg-green-500" ∧
      getCategoryColor "maintenance" = "bg-pink-500" ∧
      getCategoryColor "miscellaneous" = "bg-gray-500") := by
  refine ⟨?_, ?_, ⟨rfl, rfl, rfl, rfl, rfl, rfl, rfl, rfl, rfl⟩,
    ⟨rfl, rfl, rfl, rfl, rfl, rfl, rfl, rfl, rfl⟩⟩
  · unfold getCategoryDisplayName
    have hn : categoryNames.find? (fun p => p.1 == key) = none := by
      rw [List.find?_eq_none]
      intro p hp
      simp only [beq_iff_eq]
      intro hk
      exact h1 (hk ▸ List.mem_map_of_mem Prod.fst hp)
    rw [hn]
    rfl
  · unfold getCategoryColor
    have hn : categoryColors.find? (fun p => p.1 == key) = none := by
      rw [List.find?_eq_none]
      intro p hp
      simp only [beq_iff_eq]
      intro hk
      exact h2 (hk ▸ List.mem_map_of_mem Prod.fst hp)
    rw [hn]
    rfl

/-- Witness for C10: a key outside both maps yields itself and the gray
default. -/
theorem category_helpers_total_witness :
    ("unknown_key" ∉ categoryNames.map Prod.fst) ∧
    ("unknown_key" ∉ categoryColors.map Prod.fst) ∧
    (getCategoryDisplayName "unknown_key" = "unknown_key" ∧
      getCategoryColor "unknown_key" = "bg-gray-500" ∧
      (getCategoryDisplayName "food" = "Food & Beverages" ∧
        getCategoryDisplayName "transport" = "Transportation" ∧
        getCategoryDisplayName "office_supplies" = "Office Supplies" ∧
        getCategoryDisplayName "utilities" = "Utilities" ∧
        getCategoryDisplayName "rent" = "Rent & Lease" ∧
        getCategoryDisplayName "professional_services" = "Professional Services" ∧
        getCategoryDisplayName "raw_materials" = "Raw Materials" ∧
        getCategoryDisplayName "maintenance" = "Repairs & Maintenance" ∧
        getCategoryDisplayName "miscellaneous" = "Miscellaneous") ∧
      (getCategoryColor "food" = "bg-orange-500" ∧
        getCategoryColor "transport" = "bg-blue-500" ∧
        getCategoryColor "office_supplies" = "bg-purple-500" ∧
        getCategoryColor "utilities" = "bg-yellow-500" ∧
        getCategoryColor "rent" = "bg-red-500" ∧
        getCategoryColor "professional_services" = "bg-indigo-500" ∧
        getCategoryColor "raw_materials" = "bg-green-500" ∧
        getCategoryColor "maintenance" = "bg-pink-500" ∧
        getCategoryColor "miscellaneous" = "bg-gray-500")) :=
  ⟨by decide, by decide,
    category_helpers_total "unknown_key" (by decide) (by decide)⟩

end Finguru
